import Mathlib

/-!
Verification of the stream demultiplexer / event dispatcher of `src/websockets.rs`
(the `WebSockets` struct: URL construction, handler registration, frame
classification in `handle_msg`, envelope extraction, and `event_loop`).

Frames are modelled as `List Char` (the source operates on ASCII frames, where
Rust's byte indices and char indices coincide).  Rust's `String::find` /
`String::rfind` are modelled by `findSub` / `rfindChar` below.

The JSON decoders (`serde_json::from_str` into the event types of `model.rs`,
which is outside the dispatcher source) are external collaborators per §4.4/§6
of the spec; they are modelled abstractly as a record of functions
`Str → Option τ`, one per event family, where `none` models a deserialization
error.  A `.unwrap()` on a failed decode — a Rust panic that aborts the event
loop — is modelled by an `Option.none` result of `handle_msg`.
-/

namespace BinanceWS

/-- Frames and string constants as character lists. -/
abbrev Str : Type := List Char

/-- Characters of a string literal. -/
def str (s : String) : Str := s.data

/-- Source constant `static WEBSOCKET_URL` of the source. -/
def WEBSOCKET_URL : Str := str ("wss://stream.binance.com:9443/ws/")

/-- Source constant `static WEBSOCKET_MULTI_STREAM` of the source. -/
def WEBSOCKET_MULTI_STREAM : Str := str ("wss://stream.binance.com:9443/stream?streams=")

/-- Source constant `static STREAM = "stream"`. -/
def STREAM : Str := str ("stream")

/-- Source constant `static OUTBOUND_ACCOUNT_INFO`. -/
def OUTBOUND_ACCOUNT_INFO : Str := str ("outboundAccountInfo")

/-- Source constant `static EXECUTION_REPORT`. -/
def EXECUTION_REPORT : Str := str ("executionReport")

/-- Source constant `static KLINE`. -/
def KLINE : Str := str ("kline")

/-- Source constant `static AGGREGATED_TRADE`. -/
def AGGREGATED_TRADE : Str := str ("aggTrade")

/-- Source constant `static DEPTH_ORDERBOOK = "depthUpdate"`. -/
def DEPTH_ORDERBOOK : Str := str ("depthUpdate")

/-- Source constant `static PARTIAL_ORDERBOOK = "lastUpdateId"` (the snapshot order-book token). -/
def PARTIAL_ORDERBOOK : Str := str ("lastUpdateId")

/-- Source constant `static DAYTICKER = "24hrTicker"`. -/
def DAYTICKER : Str := str ("24hrTicker")

/-- The literal `"data":` searched for by the envelope branch of `handle_msg`. -/
def DATA_KEY : Str := str ("\"data\":")

/-- The character `}` searched for by `msg.rfind("}")`. -/
def rightBrace : Char := Char.ofNat 125

/-- Rust `str::find` for a substring pattern: byte index of the first
occurrence of `pat` in `msg`, `none` if there is none. -/
def findSub (msg pat : Str) : Option Nat :=
  if pat.isPrefixOf msg then some 0
  else
    match msg with
    | [] => none
    | _ :: t => (findSub t pat).map (· + 1)

/-- Rust `str::rfind` for a single-character pattern: index of the last
occurrence of `c` in `msg`. -/
def rfindChar (msg : Str) (c : Char) : Option Nat :=
  match msg with
  | [] => none
  | h :: t =>
    match rfindChar t c with
    | some i => some (i + 1)
    | none => if h = c then some 0 else none

/-- Rust `msg.find(pat) != None`: `pat` occurs as a substring of `msg`. -/
def containsSub (msg pat : Str) : Bool := (findSub msg pat).isSome

/-- The text of the multiplexed endpoint's envelope before the stream name:
`{"stream":"`. -/
def envPrefix : Str := str ("\x7b\"stream\":\"")

/-- The envelope text between the stream name and the payload: `","data":`. -/
def envMid : Str := str ("\",\"data\":")

/-- The closing `}` of the envelope object. -/
def envEnd : Str := str ("\x7d")

/-- The enveloped frame `{"stream":"X","data":P}` of the multiplexed
endpoint (spec §6.3), for stream name `X` and inner payload `P`. -/
def envFrame (X P : Str) : Str := envPrefix ++ (X ++ (envMid ++ (P ++ envEnd)))

/-- The classification outcome of the `if`/`else if` chain of
`WebSockets::handle_msg` (§4.2 of the spec).  `snapshotBook` is the
`PARTIAL_ORDERBOOK` (`lastUpdateId`) branch, `depthDelta` the
`DEPTH_ORDERBOOK` (`depthUpdate`) branch, `envelopeFrame` the `STREAM`
branch. -/
inductive FrameClass where
  | accountUpdate
  | orderTrade
  | aggTrades
  | dayTicker
  | kline
  | snapshotBook
  | depthDelta
  | envelopeFrame
  | unknown
deriving DecidableEq

/-- The branch of the `if msg.find(TOKEN) != None` chain of
`WebSockets::handle_msg` that a frame falls into, in the source's order:
`OUTBOUND_ACCOUNT_INFO`, `EXECUTION_REPORT`, `AGGREGATED_TRADE`, `DAYTICKER`,
`KLINE`, `PARTIAL_ORDERBOOK`, `DEPTH_ORDERBOOK`, `STREAM`, otherwise nothing. -/
def classify (msg : Str) : FrameClass :=
  if containsSub msg OUTBOUND_ACCOUNT_INFO then FrameClass.accountUpdate
  else if containsSub msg EXECUTION_REPORT then FrameClass.orderTrade
  else if containsSub msg AGGREGATED_TRADE then FrameClass.aggTrades
  else if containsSub msg DAYTICKER then FrameClass.dayTicker
  else if containsSub msg KLINE then FrameClass.kline
  else if containsSub msg PARTIAL_ORDERBOOK then FrameClass.snapshotBook
  else if containsSub msg DEPTH_ORDERBOOK then FrameClass.depthDelta
  else if containsSub msg STREAM then FrameClass.envelopeFrame
  else FrameClass.unknown

/-- The fixed discriminator-token order of spec §4.2, token paired with the
family it selects. -/
def tokenOrder : List (Str × FrameClass) :=
  [(OUTBOUND_ACCOUNT_INFO, FrameClass.accountUpdate),
   (EXECUTION_REPORT, FrameClass.orderTrade),
   (AGGREGATED_TRADE, FrameClass.aggTrades),
   (DAYTICKER, FrameClass.dayTicker),
   (KLINE, FrameClass.kline),
   (PARTIAL_ORDERBOOK, FrameClass.snapshotBook),
   (DEPTH_ORDERBOOK, FrameClass.depthDelta),
   (STREAM, FrameClass.envelopeFrame)]

/-- Classification as worded by the spec: the family of the FIRST token of the
§4.2 order that appears as a substring of the frame, `unknown` if none does. -/
def classifySpec (msg : Str) : FrameClass :=
  match tokenOrder.find? (fun p => decide (p.1 <:+: msg)) with
  | some p => p.2
  | none => FrameClass.unknown

/-- The seven terminal discriminator tokens, i.e. every token the classifier
tries before `STREAM`. -/
def earlyTokens : List Str :=
  [OUTBOUND_ACCOUNT_INFO, EXECUTION_REPORT, AGGREGATED_TRADE, DAYTICKER, KLINE,
   PARTIAL_ORDERBOOK, DEPTH_ORDERBOOK]

/-- One observable handler invocation performed by the dispatcher: which
callback of which registered handler object ran, with the decoded event it
received.  Type parameters: `U M T K` are the four handler-object types
(the boxed trait objects of the source); `A O Tr D Kl B DB` are the decoded
event types `AccountUpdateEvent`, `OrderTradeEvent`, `TradesEvent`,
`DayTickerEvent`, `KlineEvent`, `OrderBook`, `DepthOrderBookEvent` of
`model.rs`. -/
inductive Invocation (U M T K A O Tr D Kl B DB : Type) where
  | accountUpdate (h : U) (e : A)
  | orderTrade (h : U) (e : O)
  | aggTrades (h : M) (e : Tr)
  | dayTicker (h : T) (e : List D)
  | kline (h : K) (e : Kl)
  | snapshotBook (h : M) (e : B)
  | depthDelta (h : M) (e : DB)
deriving DecidableEq

/-- The `WebSockets` struct of the source.  `S` is the type of the connected
transport handle (the `(WebSocket<AutoStream>, Response)` pair); the four
handler fields are the boxed trait objects, abstracted by type parameters. -/
structure WebSockets (S U M T K : Type) where
  socket : Option S
  user_stream_handler : Option U
  market_handler : Option M
  ticker_handler : Option T
  kline_handler : Option K
deriving DecidableEq

/-- Constructor `WebSockets::new` (also the `Default` derive): no socket, no handlers. -/
def WebSockets.new (S U M T K : Type) : WebSockets S U M T K :=
  { socket := none
    user_stream_handler := none
    market_handler := none
    ticker_handler := none
    kline_handler := none }

/-- Registration `WebSockets::add_user_stream_handler`: stores the handler, replacing any
previous one. -/
def add_user_stream_handler {S U M T K : Type} (ws : WebSockets S U M T K) (h : U) :
    WebSockets S U M T K :=
  { ws with user_stream_handler := some h }

/-- Registration `WebSockets::add_market_handler`. -/
def add_market_handler {S U M T K : Type} (ws : WebSockets S U M T K) (h : M) :
    WebSockets S U M T K :=
  { ws with market_handler := some h }

/-- Registration `WebSockets::add_day_ticker_handler`. -/
def add_day_ticker_handler {S U M T K : Type} (ws : WebSockets S U M T K) (h : T) :
    WebSockets S U M T K :=
  { ws with ticker_handler := some h }

/-- Registration `WebSockets::add_kline_handler`. -/
def add_kline_handler {S U M T K : Type} (ws : WebSockets S U M T K) (h : K) :
    WebSockets S U M T K :=
  { ws with kline_handler := some h }

/-- Modelled from the spec: the JSON decoders of §4.4.  `serde_json::from_str`
into each typed event of `model.rs` (which is not part of the dispatcher
source) is an external deserialization step; `none` models a decode error,
which `handle_msg` hits with `.unwrap()`. -/
structure Decoders (A O Tr D Kl B DB : Type) where
  accountUpdate : Str → Option A
  orderTrade : Str → Option O
  aggTrades : Str → Option Tr
  dayTickers : Str → Option (List D)
  kline : Str → Option Kl
  orderBook : Str → Option B
  depthOrderBook : Str → Option DB

/-- The envelope extraction performed by the `STREAM` branch of `handle_msg`:
`msg.find("\"data\":")`, `msg.rfind("}")`, and on success the character slice
`msg.chars().skip(i_msg).take(i_end - i_msg - 1)`.  Subtraction is `Nat`
truncated subtraction; the theorems below only use it where
`i_msg + 1 ≤ i_end`, where it agrees with the Rust `usize` arithmetic. -/
def extract_data (msg : Str) : Option Str :=
  match findSub msg DATA_KEY, rfindChar msg rightBrace with
  | some i, some j => some ((msg.drop i).take (j - i - 1))
  | _, _ => none

/-- The `if msg.find(TOKEN) != None` chain of `WebSockets::handle_msg`.  Each
terminal branch decodes with `.unwrap()` (`Option.map`: a decode failure
propagates as `none`, the panic) and then invokes the registered handler if
one is present (`if let Some(ref h) = ...`).  `streamCase` is the value of the
`STREAM` (envelope) branch, supplied by `handle_msgF` so that the recursion
of that branch stays structural in the fuel. -/
def dispatchTerminal {S U M T K A O Tr D Kl B DB : Type}
    (dec : Decoders A O Tr D Kl B DB) (ws : WebSockets S U M T K) (msg : Str)
    (streamCase : Option (List (Invocation U M T K A O Tr D Kl B DB))) :
    Option (List (Invocation U M T K A O Tr D Kl B DB)) :=
  if containsSub msg OUTBOUND_ACCOUNT_INFO then
    (dec.accountUpdate msg).map (fun ev =>
      match ws.user_stream_handler with
      | some h => [Invocation.accountUpdate h ev]
      | none => [])
  else if containsSub msg EXECUTION_REPORT then
    (dec.orderTrade msg).map (fun ev =>
      match ws.user_stream_handler with
      | some h => [Invocation.orderTrade h ev]
      | none => [])
  else if containsSub msg AGGREGATED_TRADE then
    (dec.aggTrades msg).map (fun ev =>
      match ws.market_handler with
      | some h => [Invocation.aggTrades h ev]
      | none => [])
  else if containsSub msg DAYTICKER then
    (dec.dayTickers msg).map (fun ev =>
      match ws.ticker_handler with
      | some h => [Invocation.dayTicker h ev]
      | none => [])
  else if containsSub msg KLINE then
    (dec.kline msg).map (fun ev =>
      match ws.kline_handler with
      | some h => [Invocation.kline h ev]
      | none => [])
  else if containsSub msg PARTIAL_ORDERBOOK then
    (dec.orderBook msg).map (fun ev =>
      match ws.market_handler with
      | some h => [Invocation.snapshotBook h ev]
      | none => [])
  else if containsSub msg DEPTH_ORDERBOOK then
    (dec.depthOrderBook msg).map (fun ev =>
      match ws.market_handler with
      | some h => [Invocation.depthDelta h ev]
      | none => [])
  else if containsSub msg STREAM then
    streamCase
  else
    some []

/-- Dispatch `WebSockets::handle_msg`, fuelled.  The fuel only bounds the recursion of
the `STREAM` (envelope) branch, which in the source recurses on a strictly
shorter string; `handle_msg` below instantiates the fuel with `msg.length`,
which `handle_msgF_congr` shows is always enough.  The result is the list of
handler invocations the call performs, or `none` if a `.unwrap()` on a failed
decode panics. -/
def handle_msgF {S U M T K A O Tr D Kl B DB : Type}
    (dec : Decoders A O Tr D Kl B DB) (ws : WebSockets S U M T K) :
    Nat → Str → Option (List (Invocation U M T K A O Tr D Kl B DB))
  | 0, msg => dispatchTerminal dec ws msg (some [])
  | fuel + 1, msg =>
    dispatchTerminal dec ws msg
      (match extract_data msg with
       | some sub => handle_msgF dec ws fuel sub
       | none => some [])

/-- Dispatch of `WebSockets::handle_msg` on a frame: the sequence of handler invocations
it performs, `none` modelling a panic of `.unwrap()` on a decode failure. -/
def handle_msg {S U M T K A O Tr D Kl B DB : Type}
    (dec : Decoders A O Tr D Kl B DB) (ws : WebSockets S U M T K)
    (msg : Str) : Option (List (Invocation U M T K A O Tr D Kl B DB)) :=
  handle_msgF dec ws msg.length msg

/-- The error cases of `WebSockets::connect` / `connect_multiple_streams`:
`Url::parse` failure (propagated with `?`, `BadEndpoint` in the spec's
taxonomy) and `bail!("Error during handshake ...")`. -/
inductive ConnectError where
  | badEndpoint
  | handshakeFailed
deriving DecidableEq

/-- Modelled from the spec: the external collaborators of §6 used by
`connect` — `url::Url::parse` (None = parse error) and `tungstenite::connect`
(None = handshake failure), for an abstract parsed-URL type `Url` and
transport-handle type `S`. -/
structure Env (Url S : Type) where
  parseUrl : Str → Option Url
  wsConnect : Url → Option S

/-- Operation `WebSockets::connect`: formats `WEBSOCKET_URL ++ endpoint`, parses it,
performs the handshake, and on success stores the transport handle.  Returns
the `Result` together with the post-state of the struct. -/
def connect {Url S U M T K : Type} (env : Env Url S) (ws : WebSockets S U M T K)
    (endpoint : Str) : Except ConnectError Unit × WebSockets S U M T K :=
  match env.parseUrl (WEBSOCKET_URL ++ endpoint) with
  | none => (Except.error ConnectError.badEndpoint, ws)
  | some url =>
    match env.wsConnect url with
    | some answer => (Except.ok (), { ws with socket := some answer })
    | none => (Except.error ConnectError.handshakeFailed, ws)

/-- Rust `Vec::join(sep)` on strings. -/
def join_sep (sep : Str) : List Str → Str
  | [] => []
  | [x] => x
  | x :: y :: l => x ++ sep ++ join_sep sep (y :: l)

/-- Operation `WebSockets::connect_multiple_streams`: formats
`WEBSOCKET_MULTI_STREAM ++ endpoints.join("/")` and proceeds as `connect`. -/
def connect_multiple_streams {Url S U M T K : Type} (env : Env Url S)
    (ws : WebSockets S U M T K) (endpoints : List Str) :
    Except ConnectError Unit × WebSockets S U M T K :=
  match env.parseUrl (WEBSOCKET_MULTI_STREAM ++ join_sep (str ("/")) endpoints) with
  | none => (Except.error ConnectError.badEndpoint, ws)
  | some url =>
    match env.wsConnect url with
    | some answer => (Except.ok (), { ws with socket := some answer })
    | none => (Except.error ConnectError.handshakeFailed, ws)

/-- Loop `WebSockets::event_loop`, run for `n` iterations of the `loop`.  The
transport handle is instantiated with the Frame Source of spec §6.1: the list
of text frames the socket will deliver, in order (`[]` left = the next
`read_message()` fails, whose `.unwrap()` panics — modelled `none`).  When
`socket` is `None` the iteration reads nothing and invokes nothing.  Returns
the post-state and all handler invocations of the `n` iterations, or `none`
if one iteration panicked.  The Rust `loop` has no exit, so termination of
the source function is never modelled as a normal return. -/
def event_loopN {U M T K A O Tr D Kl B DB : Type}
    (dec : Decoders A O Tr D Kl B DB) :
    Nat → WebSockets (List Str) U M T K →
    Option (WebSockets (List Str) U M T K × List (Invocation U M T K A O Tr D Kl B DB))
  | 0, ws => some (ws, [])
  | n + 1, ws =>
    match ws.socket with
    | none => event_loopN dec n ws
    | some [] => none
    | some (f :: rest) =>
      let ws' : WebSockets (List Str) U M T K := { ws with socket := some rest }
      match handle_msg dec ws' f with
      | none => none
      | some evs => (event_loopN dec n ws').map (fun p => (p.1, evs ++ p.2))

/-- The family's decoder rejects the frame (spec §4.4 decode failure), for
the family the frame is classified into; `False` when the frame is not
classified into one of the seven terminal families. -/
def decodeFailsAt {A O Tr D Kl B DB : Type} (dec : Decoders A O Tr D Kl B DB)
    (msg : Str) : Prop :=
  match classify msg with
  | FrameClass.accountUpdate => dec.accountUpdate msg = none
  | FrameClass.orderTrade => dec.orderTrade msg = none
  | FrameClass.aggTrades => dec.aggTrades msg = none
  | FrameClass.dayTicker => dec.dayTickers msg = none
  | FrameClass.kline => dec.kline msg = none
  | FrameClass.snapshotBook => dec.orderBook msg = none
  | FrameClass.depthDelta => dec.depthOrderBook msg = none
  | FrameClass.envelopeFrame => False
  | FrameClass.unknown => False

/-- The handler slot consulted for the given recognized family is empty
(`False` for the two non-terminal classifications). -/
def handlerAbsent {S U M T K : Type} (ws : WebSockets S U M T K) : FrameClass → Prop
  | FrameClass.accountUpdate => ws.user_stream_handler = none
  | FrameClass.orderTrade => ws.user_stream_handler = none
  | FrameClass.aggTrades => ws.market_handler = none
  | FrameClass.dayTicker => ws.ticker_handler = none
  | FrameClass.kline => ws.kline_handler = none
  | FrameClass.snapshotBook => ws.market_handler = none
  | FrameClass.depthDelta => ws.market_handler = none
  | FrameClass.envelopeFrame => False
  | FrameClass.unknown => False

/-- The family's decoder accepts the frame, for the recognized family the
frame is classified into. -/
def decodeOk {A O Tr D Kl B DB : Type} (dec : Decoders A O Tr D Kl B DB)
    (msg : Str) : Prop :=
  match classify msg with
  | FrameClass.accountUpdate => (dec.accountUpdate msg).isSome = true
  | FrameClass.orderTrade => (dec.orderTrade msg).isSome = true
  | FrameClass.aggTrades => (dec.aggTrades msg).isSome = true
  | FrameClass.dayTicker => (dec.dayTickers msg).isSome = true
  | FrameClass.kline => (dec.kline msg).isSome = true
  | FrameClass.snapshotBook => (dec.orderBook msg).isSome = true
  | FrameClass.depthDelta => (dec.depthOrderBook msg).isSome = true
  | FrameClass.envelopeFrame => False
  | FrameClass.unknown => False

/-- Concrete witness fixture: decoders (modelled from the spec's §6.3 schemas
as total stubs) that accept every frame, with distinguishable results. -/
def decAll : Decoders Nat Nat Nat Nat Nat Nat Nat :=
  { accountUpdate := fun _ => some 1
    orderTrade := fun _ => some 2
    aggTrades := fun _ => some 3
    dayTickers := fun _ => some [4]
    kline := fun _ => some 5
    orderBook := fun _ => some 6
    depthOrderBook := fun _ => some 7 }

/-- Concrete witness fixture: a malformed kline frame (`"k"` not an object,
spec scenario S5), on which the kline decoder of `decSelective` fails. -/
def klineBad : Str := str ("\x7b\"e\":\"kline\",\"k\":0\x7d")

/-- Concrete witness fixture: a well-formed kline frame (spec scenario S1). -/
def klineGood : Str := str ("\x7b\"e\":\"kline\",\"E\":123,\"s\":\"BNBUSDT\",\"k\":\x7b\x7d\x7d")

/-- Concrete witness fixture: a well-formed aggTrade frame. -/
def aggFrame : Str := str ("\x7b\"e\":\"aggTrade\",\"a\":42\x7d")

/-- Concrete witness fixture: a depth delta that also mentions the prior
snapshot id, containing both `depthUpdate` and `lastUpdateId` (spec scenario
S6). -/
def snapFrame : Str := str ("\x7b\"e\":\"depthUpdate\",\"lastUpdateId\":160\x7d")

/-- Concrete witness fixture: decoders like `decAll` except that the kline
decoder rejects exactly the malformed frame `klineBad`. -/
def decSelective : Decoders Nat Nat Nat Nat Nat Nat Nat :=
  { decAll with kline := fun m => if m = klineBad then none else some 5 }

/-- Concrete witness fixture: a dispatcher state with every handler
registered (user 10, market 20, ticker 30, kline 40) and no socket. -/
def wsAll : WebSockets (List Str) Nat Nat Nat Nat :=
  { socket := none
    user_stream_handler := some 10
    market_handler := some 20
    ticker_handler := some 30
    kline_handler := some 40 }

/-- Concrete witness fixture: a dispatcher state with a market handler but no
kline handler (spec scenario S4) and no socket. -/
def wsNoKline : WebSockets (List Str) Nat Nat Nat Nat :=
  { socket := none
    user_stream_handler := none
    market_handler := some 20
    ticker_handler := none
    kline_handler := none }

theorem findSub_prefix_drop {msg pat : Str} {i : Nat} (h : findSub msg pat = some i) :
    pat <+: msg.drop i := by
  induction msg generalizing i with
  | nil =>
    unfold findSub at h
    by_cases hp : pat.isPrefixOf ([] : Str) = true
    · simp [hp] at h
      subst h
      exact List.isPrefixOf_iff_prefix.mp hp
    · simp [hp] at h
  | cons a t ih =>
    unfold findSub at h
    by_cases hp : pat.isPrefixOf (a :: t) = true
    · simp [hp] at h
      subst h
      exact List.isPrefixOf_iff_prefix.mp hp
    · simp [hp] at h
      rcases h with ⟨i', hi', rfl⟩
      simpa using ih hi'

theorem isSome_findSub_of_parts (pat : Str) :
    ∀ s r : Str, (findSub (s ++ pat ++ r) pat).isSome = true := by
  intro s
  induction s with
  | nil =>
    intro r
    have hp : pat.isPrefixOf (([] : Str) ++ pat ++ r) = true := by
      rw [ List.isPrefixOf_iff_prefix]
      simpa using List.prefix_append pat r
    unfold findSub
    rw [if_pos hp]
    rfl
  | cons a s ih =>
    intro r
    unfold findSub
    by_cases hp : pat.isPrefixOf ((a :: s) ++ pat ++ r) = true
    · rw [if_pos hp]
      rfl
    · rw [if_neg hp]
      simp only [List.cons_append, List.append_assoc, Option.isSome_map]
      have := ih r
      simpa [List.append_assoc] using this

theorem containsSub_iff {msg pat : Str} : containsSub msg pat = true ↔ pat <:+: msg := by
  constructor
  · intro h
    unfold containsSub at h
    cases hf : findSub msg pat with
    | none => rw [hf] at h; simp at h
    | some i =>
      have hpre := findSub_prefix_drop hf
      exact hpre.isInfix.trans (List.drop_suffix i msg).isInfix
  · rintro ⟨s, r, rfl⟩
    unfold containsSub
    have := isSome_findSub_of_parts pat s r
    simpa using this

theorem containsSub_eq_decide (msg pat : Str) :
    containsSub msg pat = decide (pat <:+: msg) := by
  by_cases h : pat <:+: msg
  · simp [h, containsSub_iff.mpr h]
  · simp only [decide_eq_false h]
    rcases hb : containsSub msg pat with _ | _
    · rfl
    · exact absurd (containsSub_iff.mp hb) h

theorem containsSub_eq_false {msg pat : Str} (h : ¬ pat <:+: msg) :
    containsSub msg pat = false := by
  rw [containsSub_eq_decide]
  simp [h]

theorem findSub_le_length {msg pat : Str} {i : Nat} (h : findSub msg pat = some i) :
    i ≤ msg.length := by
  induction msg generalizing i with
  | nil =>
    unfold findSub at h
    by_cases hp : pat.isPrefixOf ([] : Str) = true
    · rw [if_pos hp] at h
      simp at h
      omega
    · rw [if_neg hp] at h
      simp at h
  | cons a t ih =>
    unfold findSub at h
    by_cases hp : pat.isPrefixOf (a :: t) = true
    · rw [if_pos hp] at h
      simp at h
      omega
    · rw [if_neg hp] at h
      simp at h
      rcases h with ⟨i', hi', rfl⟩
      have := ih hi'
      simp
      omega

theorem findSub_some_bound {msg pat : Str} {i : Nat} (h : findSub msg pat = some i) :
    i + pat.length ≤ msg.length := by
  have hp := findSub_prefix_drop h
  have h1 : pat.length ≤ (msg.drop i).length := hp.length_le
  rw [List.length_drop] at h1
  have h2 := findSub_le_length h
  omega

theorem rfindChar_lt {msg : Str} {c : Char} {j : Nat} (h : rfindChar msg c = some j) :
    j < msg.length := by
  induction msg generalizing j with
  | nil => simp [rfindChar] at h
  | cons a t ih =>
    unfold rfindChar at h
    cases ht : rfindChar t c with
    | some i =>
      rw [ht] at h
      simp at h
      have := ih ht
      simp
      omega
    | none =>
      rw [ht] at h
      by_cases ha : a = c
      · simp [ha] at h
        simp
        omega
      · simp [ha] at h

theorem rfindChar_concat (l : Str) (c : Char) : rfindChar (l ++ [c]) c = some l.length := by
  induction l with
  | nil => simp [rfindChar]
  | cons a t ih =>
    unfold rfindChar
    simp only [List.cons_append]
    rw [ih]
    simp

theorem findSub_eq_some_iff {msg pat : Str} {i : Nat} :
    findSub msg pat = some i ↔
      (pat <+: msg.drop i ∧ ∀ q, q < i → ¬ pat <+: msg.drop q) := by
  induction msg generalizing i with
  | nil =>
    unfold findSub
    by_cases hp : pat.isPrefixOf ([] : Str) = true
    · rw [if_pos hp]
      have hpre : pat <+: ([] : Str) := List.isPrefixOf_iff_prefix.mp hp
      constructor
      · intro h
        simp at h
        subst h
        simp [hpre]
      · rintro ⟨h1, h2⟩
        rcases Nat.eq_zero_or_pos i with rfl | hpos
        · rfl
        · exact absurd (by simpa using hpre) (h2 0 hpos)
    · rw [if_neg hp]
      constructor
      · intro h
        simp at h
      · rintro ⟨h1, _⟩
        simp at h1
        exact absurd ( List.isPrefixOf_iff_prefix.mpr (by simp [h1])) hp
  | cons a t ih =>
    unfold findSub
    by_cases hp : pat.isPrefixOf (a :: t) = true
    · rw [if_pos hp]
      have hpre : pat <+: a :: t := List.isPrefixOf_iff_prefix.mp hp
      constructor
      · intro h
        simp at h
        subst h
        simpa using hpre
      · rintro ⟨h1, h2⟩
        rcases Nat.eq_zero_or_pos i with rfl | hpos
        · rfl
        · exact absurd (by simpa using hpre) (h2 0 hpos)
    · rw [if_neg hp]
      have hnpre : ¬ pat <+: a :: t := fun hc => hp ( List.isPrefixOf_iff_prefix.mpr hc)
      constructor
      · intro h
        simp at h
        rcases h with ⟨i', hi', rfl⟩
        rcases ih.mp hi' with ⟨h1, h2⟩
        refine ⟨by simpa using h1, ?_⟩
        intro q hq
        cases q with
        | zero => simpa using hnpre
        | succ q' =>
          simp only [List.drop_succ_cons]
          exact h2 q' (by omega)
      · rintro ⟨h1, h2⟩
        cases i with
        | zero => exact absurd (by simpa using h1) hnpre
        | succ i' =>
          have : findSub t pat = some i' := by
            refine ih.mpr ⟨by simpa using h1, ?_⟩
            intro q hq
            have := h2 (q + 1) (by omega)
            simpa using this
          simp [this]

theorem prefix_of_append_left {p u v : Str} (h : p <+: u ++ v)
    (hlen : p.length ≤ u.length) : p <+: u := by
  rcases List.prefix_or_prefix_of_prefix h ( List.prefix_append u v) with h1 | h1
  · exact h1
  · have he : u = p := h1.eq_of_length (Nat.le_antisymm h1.length_le hlen)
    rw [← he]

theorem prefix_append_cases {t u v : Str} (h : t <+: u ++ v) :
    t <+: u ∨ ∃ t2, t = u ++ t2 ∧ t2 <+: v := by
  rcases List.prefix_or_prefix_of_prefix h ( List.prefix_append u v) with h1 | h1
  · exact Or.inl h1
  · right
    rcases h1 with ⟨w, rfl⟩
    rcases h with ⟨r, hr⟩
    rw [List.append_assoc] at hr
    have hw : w ++ r = v := List.append_cancel_left hr
    exact ⟨w, rfl, ⟨r, hw⟩⟩

/-- Decomposition of an infix of an append: it lies in the left part, lies in
the right part, or spans the boundary (then it splits into a nonempty suffix
of the left part followed by a nonempty prefix of the right part). -/
theorem infix_append_cases {t v : Str} :
    ∀ u : Str, t <:+: u ++ v →
      t <:+: u ∨ t <:+: v ∨
        ∃ t1 t2, t = t1 ++ t2 ∧ t1 ≠ [] ∧ t2 ≠ [] ∧ t1 <:+ u ∧ t2 <+: v := by
  intro u
  induction u with
  | nil =>
    intro h
    simp at h
    exact Or.inr (Or.inl h)
  | cons a u' ih =>
    intro h
    rw [List.cons_append] at h
    rcases List.infix_cons_iff.mp h with hpre | hinf
    · rw [← List.cons_append] at hpre
      rcases prefix_append_cases hpre with h1 | ⟨t2, rfl, ht2⟩
      · exact Or.inl h1.isInfix
      · by_cases h2 : t2 = []
        · subst h2
          simp
        · right; right
          exact ⟨a :: u', t2, rfl, by simp, h2, List.suffix_refl _, ht2⟩
    · rcases ih hinf with h1 | h1 | ⟨t1, t2, rfl, hn1, hn2, hs, hpre⟩
      · exact Or.inl (h1.trans (List.suffix_cons a u').isInfix)
      · exact Or.inr (Or.inl h1)
      · right; right
        exact ⟨t1, t2, rfl, hn1, hn2, hs.trans (List.suffix_cons a u'), hpre⟩

theorem head_mem_of_ne_nil_pre {t v : Str} {c : Char} (h : t <+: v) (hne : t ≠ [])
    (hv : v.head? = some c) : c ∈ t := by
  cases t with
  | nil => exact absurd rfl hne
  | cons b t' =>
    rcases h with ⟨r, hr⟩
    rw [← hr] at hv
    simp at hv
    subst hv
    simp

theorem mem_of_ne_nil_suffix {t v : Str} {c : Char} (h : t <:+ v) (hne : t ≠ [])
    (hv : v.getLast? = some c) : c ∈ t := by
  have hrev : t.reverse <+: v.reverse := List.reverse_prefix.mpr h
  have hnrev : t.reverse ≠ [] := by simpa using hne
  have hvh : v.reverse.head? = some c := by rw [List.head?_reverse]; exact hv
  have := head_mem_of_ne_nil_pre hrev hnrev hvh
  simpa using this

/-- A token that contains none of the envelope's punctuation characters and
does not fit inside the fixed envelope text occurs in an enveloped frame only
if it occurs in the stream name or in the payload. -/
theorem token_infix_envFrame_cases {tok X P : Str}
    (hq : ('\"' : Char) ∉ tok) (hc : (':' : Char) ∉ tok) (hb : rightBrace ∉ tok)
    (h1 : ¬ tok <:+: envPrefix) (h2 : ¬ tok <:+: envMid) (h3 : ¬ tok <:+: envEnd)
    (h : tok <:+: envFrame X P) : tok <:+: X ∨ tok <:+: P := by
  unfold envFrame at h
  rcases infix_append_cases envPrefix h with ha | ha | ⟨t1, t2, rfl, hn1, hn2, hs, hp⟩
  · exact absurd ha h1
  · rcases infix_append_cases X ha with hb1 | hb1 | ⟨t1, t2, rfl, hn1, hn2, hs, hp⟩
    · exact Or.inl hb1
    · rcases infix_append_cases envMid hb1 with hc1 | hc1 | ⟨t1, t2, rfl, hn1, hn2, hs, hp⟩
      · exact absurd hc1 h2
      · rcases infix_append_cases P hc1 with hd1 | hd1 | ⟨t1, t2, rfl, hn1, hn2, hs, hp⟩
        · exact Or.inr hd1
        · exact absurd hd1 h3
        · have hmem : rightBrace ∈ t2 :=
            head_mem_of_ne_nil_pre hp hn2 (by rw [show envEnd = [rightBrace] from rfl]; rfl)
          exact absurd (List.mem_append.mpr (Or.inr hmem)) hb
      · have hmem : (':' : Char) ∈ t1 :=
          mem_of_ne_nil_suffix hs hn1 (by rw [show envMid = str ("\",\"data\":") from rfl]; rfl)
        exact absurd (List.mem_append.mpr (Or.inl hmem)) hc
    · have hmem : ('\"' : Char) ∈ t2 := by
        refine head_mem_of_ne_nil_pre hp hn2 ?_
        rw [show envMid = ('\"' : Char) :: str (",\"data\":") from rfl]
        rfl
      exact absurd (List.mem_append.mpr (Or.inr hmem)) hq
  · have hmem : ('\"' : Char) ∈ t1 := by
      refine mem_of_ne_nil_suffix hs hn1 ?_
      rw [show envPrefix = str ("\x7b\"stream\":\"") from rfl]
      rfl
    exact absurd (List.mem_append.mpr (Or.inl hmem)) hq

/-- The literal `stream` occurs in every enveloped frame (inside the fixed
envelope prefix). -/
theorem STREAM_infix_envFrame (X P : Str) : STREAM <:+: envFrame X P := by
  refine ⟨str ("\x7b\""), str ("\":\"") ++ (X ++ (envMid ++ (P ++ envEnd))), ?_⟩
  have hsplit : envPrefix = str ("\x7b\"") ++ STREAM ++ str ("\":\"") := rfl
  unfold envFrame
  rw [hsplit]
  simp [List.append_assoc]

theorem extract_data_length {msg sub : Str} (h : extract_data msg = some sub) :
    sub.length + 1 ≤ msg.length := by
  unfold extract_data at h
  cases hi : findSub msg DATA_KEY with
  | none => rw [hi] at h; simp at h
  | some i =>
    cases hj : rfindChar msg rightBrace with
    | none => rw [hi, hj] at h; simp at h
    | some j =>
      rw [hi, hj] at h
      simp at h
      subst h
      have hb1 := findSub_some_bound hi
      have hb2 := rfindChar_lt hj
      have h7 : DATA_KEY.length = 7 := rfl
      rw [h7] at hb1
      have hl1 : ((msg.drop i).take (j - i - 1)).length ≤ j - i - 1 := by
        simpa using Nat.min_le_left (j - i - 1) (msg.drop i).length
      have hl2 : ((msg.drop i).take (j - i - 1)).length ≤ msg.length - i := by
        have := Nat.min_le_right (j - i - 1) (msg.drop i).length
        simpa using this
      omega

theorem extract_data_slice {msg sub : Str} (h : extract_data msg = some sub) :
    sub <:+: msg := by
  unfold extract_data at h
  cases hi : findSub msg DATA_KEY with
  | none => rw [hi] at h; simp at h
  | some i =>
    cases hj : rfindChar msg rightBrace with
    | none => rw [hi, hj] at h; simp at h
    | some j =>
      rw [hi, hj] at h
      simp at h
      subst h
      exact ( List.take_prefix _ _).isInfix.trans (List.drop_suffix i msg).isInfix

theorem dispatchTerminal_congr {S U M T K A O Tr D Kl B DB : Type}
    (dec : Decoders A O Tr D Kl B DB) (ws : WebSockets S U M T K) (msg : Str)
    {X Y : Option (List (Invocation U M T K A O Tr D Kl B DB))}
    (h : containsSub msg STREAM = true → X = Y) :
    dispatchTerminal dec ws msg X = dispatchTerminal dec ws msg Y := by
  by_cases c8 : containsSub msg STREAM = true
  · rw [h c8]
  · unfold dispatchTerminal
    rw [if_neg c8, if_neg c8]

theorem dispatchTerminal_nil {S U M T K A O Tr D Kl B DB : Type}
    (dec : Decoders A O Tr D Kl B DB) (ws : WebSockets S U M T K)
    (sc : Option (List (Invocation U M T K A O Tr D Kl B DB))) :
    dispatchTerminal dec ws [] sc = some [] := by
  have c1 : containsSub [] OUTBOUND_ACCOUNT_INFO = false := by decide
  have c2 : containsSub [] EXECUTION_REPORT = false := by decide
  have c3 : containsSub [] AGGREGATED_TRADE = false := by decide
  have c4 : containsSub [] DAYTICKER = false := by decide
  have c5 : containsSub [] KLINE = false := by decide
  have c6 : containsSub [] PARTIAL_ORDERBOOK = false := by decide
  have c7 : containsSub [] DEPTH_ORDERBOOK = false := by decide
  have c8 : containsSub [] STREAM = false := by decide
  simp [dispatchTerminal, c1, c2, c3, c4, c5, c6, c7, c8]

theorem handle_msgF_nil {S U M T K A O Tr D Kl B DB : Type}
    (dec : Decoders A O Tr D Kl B DB) (ws : WebSockets S U M T K) (fuel : Nat) :
    handle_msgF dec ws fuel [] = some [] := by
  cases fuel with
  | zero => simp [handle_msgF, dispatchTerminal_nil]
  | succ f => simp [handle_msgF, dispatchTerminal_nil]

theorem handle_msgF_congr {S U M T K A O Tr D Kl B DB : Type}
    (dec : Decoders A O Tr D Kl B DB) (ws : WebSockets S U M T K) :
    ∀ f₁ f₂ msg, msg.length ≤ f₁ → msg.length ≤ f₂ →
      handle_msgF dec ws f₁ msg = handle_msgF dec ws f₂ msg := by
  intro f₁
  induction f₁ with
  | zero =>
    intro f₂ msg h1 _
    have hnil : msg = [] := List.eq_nil_of_length_eq_zero (Nat.le_zero.mp h1)
    subst hnil
    rw [handle_msgF_nil, handle_msgF_nil]
  | succ f ih =>
    intro f₂ msg h1 h2
    cases f₂ with
    | zero =>
      have hnil : msg = [] := List.eq_nil_of_length_eq_zero (Nat.le_zero.mp h2)
      subst hnil
      rw [handle_msgF_nil, handle_msgF_nil]
    | succ g =>
      simp only [handle_msgF]
      apply dispatchTerminal_congr
      intro _
      cases he : extract_data msg with
      | none => rfl
      | some sub =>
        have hlen := extract_data_length he
        simp only []
        exact ih g sub (by omega) (by omega)

/-- Fuel `msg.length` computes `handle_msg`; so does any larger fuel. -/
theorem handle_msgF_eq_handle_msg {S U M T K A O Tr D Kl B DB : Type}
    (dec : Decoders A O Tr D Kl B DB) (ws : WebSockets S U M T K)
    {f : Nat} {msg : Str} (h : msg.length ≤ f) :
    handle_msgF dec ws f msg = handle_msg dec ws msg :=
  handle_msgF_congr dec ws f msg.length msg h (Nat.le_refl _)

/-- The branch chain evaluates exactly the branch selected by `classify`. -/
theorem dispatchTerminal_eq {S U M T K A O Tr D Kl B DB : Type}
    (dec : Decoders A O Tr D Kl B DB) (ws : WebSockets S U M T K) (msg : Str)
    (sc : Option (List (Invocation U M T K A O Tr D Kl B DB))) :
    dispatchTerminal dec ws msg sc =
      match classify msg with
      | FrameClass.accountUpdate =>
        (dec.accountUpdate msg).map (fun ev =>
          match ws.user_stream_handler with
          | some h => [Invocation.accountUpdate h ev]
          | none => [])
      | FrameClass.orderTrade =>
        (dec.orderTrade msg).map (fun ev =>
          match ws.user_stream_handler with
          | some h => [Invocation.orderTrade h ev]
          | none => [])
      | FrameClass.aggTrades =>
        (dec.aggTrades msg).map (fun ev =>
          match ws.market_handler with
          | some h => [Invocation.aggTrades h ev]
          | none => [])
      | FrameClass.dayTicker =>
        (dec.dayTickers msg).map (fun ev =>
          match ws.ticker_handler with
          | some h => [Invocation.dayTicker h ev]
          | none => [])
      | FrameClass.kline =>
        (dec.kline msg).map (fun ev =>
          match ws.kline_handler with
          | some h => [Invocation.kline h ev]
          | none => [])
      | FrameClass.snapshotBook =>
        (dec.orderBook msg).map (fun ev =>
          match ws.market_handler with
          | some h => [Invocation.snapshotBook h ev]
          | none => [])
      | FrameClass.depthDelta =>
        (dec.depthOrderBook msg).map (fun ev =>
          match ws.market_handler with
          | some h => [Invocation.depthDelta h ev]
          | none => [])
      | FrameClass.envelopeFrame => sc
      | FrameClass.unknown => some [] := by
  unfold dispatchTerminal classify
  by_cases c1 : containsSub msg OUTBOUND_ACCOUNT_INFO = true
  · simp [c1]
  by_cases c2 : containsSub msg EXECUTION_REPORT = true
  · simp [c1, c2]
  by_cases c3 : containsSub msg AGGREGATED_TRADE = true
  · simp [c1, c2, c3]
  by_cases c4 : containsSub msg DAYTICKER = true
  · simp [c1, c2, c3, c4]
  by_cases c5 : containsSub msg KLINE = true
  · simp [c1, c2, c3, c4, c5]
  by_cases c6 : containsSub msg PARTIAL_ORDERBOOK = true
  · simp [c1, c2, c3, c4, c5, c6]
  by_cases c7 : containsSub msg DEPTH_ORDERBOOK = true
  · simp [c1, c2, c3, c4, c5, c6, c7]
  by_cases c8 : containsSub msg STREAM = true
  · simp [c1, c2, c3, c4, c5, c6, c7, c8]
  · simp [c1, c2, c3, c4, c5, c6, c7, c8]

/-- Dispatch `handle_msg` characterized by the classification of the frame: the
selected family's decoder runs (its failure is the panic), the family's
handler — if registered — receives the decoded event, and the `STREAM`
branch recurses on the extracted slice. -/
theorem handle_msg_eq_branch {S U M T K A O Tr D Kl B DB : Type}
    (dec : Decoders A O Tr D Kl B DB) (ws : WebSockets S U M T K) (msg : Str) :
    handle_msg dec ws msg =
      match classify msg with
      | FrameClass.accountUpdate =>
        (dec.accountUpdate msg).map (fun ev =>
          match ws.user_stream_handler with
          | some h => [Invocation.accountUpdate h ev]
          | none => [])
      | FrameClass.orderTrade =>
        (dec.orderTrade msg).map (fun ev =>
          match ws.user_stream_handler with
          | some h => [Invocation.orderTrade h ev]
          | none => [])
      | FrameClass.aggTrades =>
        (dec.aggTrades msg).map (fun ev =>
          match ws.market_handler with
          | some h => [Invocation.aggTrades h ev]
          | none => [])
      | FrameClass.dayTicker =>
        (dec.dayTickers msg).map (fun ev =>
          match ws.ticker_handler with
          | some h => [Invocation.dayTicker h ev]
          | none => [])
      | FrameClass.kline =>
        (dec.kline msg).map (fun ev =>
          match ws.kline_handler with
          | some h => [Invocation.kline h ev]
          | none => [])
      | FrameClass.snapshotBook =>
        (dec.orderBook msg).map (fun ev =>
          match ws.market_handler with
          | some h => [Invocation.snapshotBook h ev]
          | none => [])
      | FrameClass.depthDelta =>
        (dec.depthOrderBook msg).map (fun ev =>
          match ws.market_handler with
          | some h => [Invocation.depthDelta h ev]
          | none => [])
      | FrameClass.envelopeFrame =>
        (match extract_data msg with
         | some sub => handle_msg dec ws sub
         | none => some [])
      | FrameClass.unknown => some [] := by
  cases hl : msg.length with
  | zero =>
    have hnil : msg = [] := List.eq_nil_of_length_eq_zero hl
    subst hnil
    have h0 : handle_msg dec ws [] = some [] := handle_msgF_nil dec ws 0
    rw [h0]
    have hcl : classify [] = FrameClass.unknown := by decide
    rw [hcl]
  | succ k =>
    conv_lhs => rw [handle_msg, hl]
    simp only [handle_msgF]
    rw [dispatchTerminal_eq]
    cases hcl : classify msg with
    | envelopeFrame =>
      simp only []
      cases he : extract_data msg with
      | none => rfl
      | some sub =>
        simp only []
        have hlen := extract_data_length he
        exact handle_msgF_eq_handle_msg dec ws (by omega)
    | accountUpdate => rfl
    | orderTrade => rfl
    | aggTrades => rfl
    | dayTicker => rfl
    | kline => rfl
    | snapshotBook => rfl
    | depthDelta => rfl
    | unknown => rfl

theorem dispatchTerminal_no_early {S U M T K A O Tr D Kl B DB : Type}
    (dec : Decoders A O Tr D Kl B DB) (ws : WebSockets S U M T K) (msg : Str)
    (h : ∀ tok ∈ earlyTokens, ¬ tok <:+: msg)
    (sc : Option (List (Invocation U M T K A O Tr D Kl B DB))) (hsc : sc = some []) :
    dispatchTerminal dec ws msg sc = some [] := by
  have c1 : containsSub msg OUTBOUND_ACCOUNT_INFO = false :=
    containsSub_eq_false (h _ (by simp [earlyTokens]))
  have c2 : containsSub msg EXECUTION_REPORT = false :=
    containsSub_eq_false (h _ (by simp [earlyTokens]))
  have c3 : containsSub msg AGGREGATED_TRADE = false :=
    containsSub_eq_false (h _ (by simp [earlyTokens]))
  have c4 : containsSub msg DAYTICKER = false :=
    containsSub_eq_false (h _ (by simp [earlyTokens]))
  have c5 : containsSub msg KLINE = false :=
    containsSub_eq_false (h _ (by simp [earlyTokens]))
  have c6 : containsSub msg PARTIAL_ORDERBOOK = false :=
    containsSub_eq_false (h _ (by simp [earlyTokens]))
  have c7 : containsSub msg DEPTH_ORDERBOOK = false :=
    containsSub_eq_false (h _ (by simp [earlyTokens]))
  subst hsc
  simp [dispatchTerminal, c1, c2, c3, c4, c5, c6, c7]

/-- A frame in which none of the seven terminal discriminator tokens occurs
(at any recursion depth: extraction only ever yields contiguous slices, which
cannot introduce tokens) makes `handle_msg` invoke nothing and panic
nowhere. -/
theorem handle_msgF_no_early {S U M T K A O Tr D Kl B DB : Type}
    (dec : Decoders A O Tr D Kl B DB) (ws : WebSockets S U M T K) :
    ∀ fuel msg, (∀ tok ∈ earlyTokens, ¬ tok <:+: msg) →
      handle_msgF dec ws fuel msg = some [] := by
  intro fuel
  induction fuel with
  | zero =>
    intro msg h
    simp only [handle_msgF]
    exact dispatchTerminal_no_early dec ws msg h _ rfl
  | succ f ih =>
    intro msg h
    simp only [handle_msgF]
    refine dispatchTerminal_no_early dec ws msg h _ ?_
    cases he : extract_data msg with
    | none => rfl
    | some sub =>
      simp only []
      apply ih
      intro tok htok hinf
      exact h tok htok (hinf.trans (extract_data_slice he))

theorem handle_msg_no_early {S U M T K A O Tr D Kl B DB : Type}
    (dec : Decoders A O Tr D Kl B DB) (ws : WebSockets S U M T K) (msg : Str)
    (h : ∀ tok ∈ earlyTokens, ¬ tok <:+: msg) :
    handle_msg dec ws msg = some [] :=
  handle_msgF_no_early dec ws msg.length msg h

/-- The source's `if`/`else if` chain computes the spec's first-match-in-order
classification. -/
theorem classify_eq_classifySpec (msg : Str) : classify msg = classifySpec msg := by
  unfold classify classifySpec tokenOrder
  by_cases h1 : OUTBOUND_ACCOUNT_INFO <:+: msg
  · simp [List.find?, containsSub_eq_decide, h1]
  by_cases h2 : EXECUTION_REPORT <:+: msg
  · simp [List.find?, containsSub_eq_decide, h1, h2]
  by_cases h3 : AGGREGATED_TRADE <:+: msg
  · simp [List.find?, containsSub_eq_decide, h1, h2, h3]
  by_cases h4 : DAYTICKER <:+: msg
  · simp [List.find?, containsSub_eq_decide, h1, h2, h3, h4]
  by_cases h5 : KLINE <:+: msg
  · simp [List.find?, containsSub_eq_decide, h1, h2, h3, h4, h5]
  by_cases h6 : PARTIAL_ORDERBOOK <:+: msg
  · simp [List.find?, containsSub_eq_decide, h1, h2, h3, h4, h5, h6]
  by_cases h7 : DEPTH_ORDERBOOK <:+: msg
  · simp [List.find?, containsSub_eq_decide, h1, h2, h3, h4, h5, h6, h7]
  by_cases h8 : STREAM <:+: msg
  · simp [List.find?, containsSub_eq_decide, h1, h2, h3, h4, h5, h6, h7, h8]
  · simp [List.find?, containsSub_eq_decide, h1, h2, h3, h4, h5, h6, h7, h8]

theorem earlyTokens_benign {tok : Str} (htok : tok ∈ earlyTokens) :
    ('\"' : Char) ∉ tok ∧ (':' : Char) ∉ tok ∧ rightBrace ∉ tok ∧
      ¬ tok <:+: envPrefix ∧ ¬ tok <:+: envMid ∧ ¬ tok <:+: envEnd := by
  fin_cases htok <;> exact (by decide)

theorem no_earlyTokens_envFrame {X P : Str}
    (hX : ∀ tok ∈ earlyTokens, ¬ tok <:+: X)
    (hP : ∀ tok ∈ earlyTokens, ¬ tok <:+: P) :
    ∀ tok ∈ earlyTokens, ¬ tok <:+: envFrame X P := by
  intro tok htok hinf
  obtain ⟨hq, hc, hb, e1, e2, e3⟩ := earlyTokens_benign htok
  rcases token_infix_envFrame_cases hq hc hb e1 e2 e3 hinf with h | h
  · exact hX tok htok h
  · exact hP tok htok h

theorem classify_envFrame {X P : Str}
    (hX : ∀ tok ∈ earlyTokens, ¬ tok <:+: X)
    (hP : ∀ tok ∈ earlyTokens, ¬ tok <:+: P) :
    classify (envFrame X P) = FrameClass.envelopeFrame := by
  have hno := no_earlyTokens_envFrame hX hP
  have c1 : containsSub (envFrame X P) OUTBOUND_ACCOUNT_INFO = false :=
    containsSub_eq_false (hno _ (by simp [earlyTokens]))
  have c2 : containsSub (envFrame X P) EXECUTION_REPORT = false :=
    containsSub_eq_false (hno _ (by simp [earlyTokens]))
  have c3 : containsSub (envFrame X P) AGGREGATED_TRADE = false :=
    containsSub_eq_false (hno _ (by simp [earlyTokens]))
  have c4 : containsSub (envFrame X P) DAYTICKER = false :=
    containsSub_eq_false (hno _ (by simp [earlyTokens]))
  have c5 : containsSub (envFrame X P) KLINE = false :=
    containsSub_eq_false (hno _ (by simp [earlyTokens]))
  have c6 : containsSub (envFrame X P) PARTIAL_ORDERBOOK = false :=
    containsSub_eq_false (hno _ (by simp [earlyTokens]))
  have c7 : containsSub (envFrame X P) DEPTH_ORDERBOOK = false :=
    containsSub_eq_false (hno _ (by simp [earlyTokens]))
  have c8 : containsSub (envFrame X P) STREAM = true :=
    containsSub_iff.mpr (STREAM_infix_envFrame X P)
  simp [classify, c1, c2, c3, c4, c5, c6, c7, c8]

theorem join_sep_eq_intercalate (sep : Str) (l : List Str) :
    join_sep sep l = List.intercalate sep l := by
  induction l with
  | nil => rfl
  | cons x xs ih =>
    cases xs with
    | nil => simp [join_sep, List.intercalate, List.intersperse]
    | cons y ys =>
      rw [join_sep, ih]
      unfold List.intercalate
      rw [List.intersperse_cons_cons]
      simp [List.append_assoc]

/-- Claim C6: `connect e` attempts exactly the URL
`wss://stream.binance.com:9443/ws/` ++ `e` (unchanged), and
`connect_multiple_streams es` attempts exactly
`wss://stream.binance.com:9443/stream?streams=` ++ the elements of `es`
joined by `/`: the result of either call is obtained by parsing and
handshaking that exact URL string. -/
theorem claim_C6 :
    (∀ (Url S U M T K : Type) (env : Env Url S) (ws : WebSockets S U M T K) (e : Str),
      connect env ws e =
        match env.parseUrl (str ("wss://stream.binance.com:9443/ws/") ++ e) with
        | none => (Except.error ConnectError.badEndpoint, ws)
        | some u =>
          match env.wsConnect u with
          | some s => (Except.ok (), { ws with socket := some s })
          | none => (Except.error ConnectError.handshakeFailed, ws)) ∧
    (∀ (Url S U M T K : Type) (env : Env Url S) (ws : WebSockets S U M T K) (es : List Str),
      connect_multiple_streams env ws es =
        match env.parseUrl (str ("wss://stream.binance.com:9443/stream?streams=") ++
            List.intercalate (str ("/")) es) with
        | none => (Except.error ConnectError.badEndpoint, ws)
        | some u =>
          match env.wsConnect u with
          | some s => (Except.ok (), { ws with socket := some s })
          | none => (Except.error ConnectError.handshakeFailed, ws)) := by
  constructor
  · intro Url S U M T K env ws e
    rfl
  · intro Url S U M T K env ws es
    unfold connect_multiple_streams
    rw [join_sep_eq_intercalate]
    rfl

/-- Claim C7: registering a second handler for a family replaces the first:
the post-state equals the state obtained by registering only the second
handler (so the registry holds exactly `h2`), and a subsequently dispatched
frame of that family is delivered to `h2` and never to `h1` (shown for the
kline family's dispatch path). -/
theorem claim_C7 :
    (∀ (S U M T K : Type) (ws : WebSockets S U M T K) (h1 h2 : U),
      add_user_stream_handler (add_user_stream_handler ws h1) h2 =
        add_user_stream_handler ws h2) ∧
    (∀ (S U M T K : Type) (ws : WebSockets S U M T K) (h1 h2 : M),
      add_market_handler (add_market_handler ws h1) h2 = add_market_handler ws h2) ∧
    (∀ (S U M T K : Type) (ws : WebSockets S U M T K) (h1 h2 : T),
      add_day_ticker_handler (add_day_ticker_handler ws h1) h2 =
        add_day_ticker_handler ws h2) ∧
    (∀ (S U M T K : Type) (ws : WebSockets S U M T K) (h1 h2 : K),
      add_kline_handler (add_kline_handler ws h1) h2 = add_kline_handler ws h2) ∧
    (∀ (S U M T K A O Tr D Kl B DB : Type) (dec : Decoders A O Tr D Kl B DB)
       (ws : WebSockets S U M T K) (h1 h2 : K) (msg : Str) (ev : Kl),
      classify msg = FrameClass.kline → dec.kline msg = some ev →
      handle_msg dec (add_kline_handler (add_kline_handler ws h1) h2) msg =
        some [Invocation.kline h2 ev]) := by
  refine ⟨fun S U M T K ws h1 h2 => rfl, fun S U M T K ws h1 h2 => rfl,
    fun S U M T K ws h1 h2 => rfl, fun S U M T K ws h1 h2 => rfl, ?_⟩
  intro S U M T K A O Tr D Kl B DB dec ws h1 h2 msg ev hcl hdec
  rw [handle_msg_eq_branch, hcl]
  simp [hdec, add_kline_handler]

/-- Claim C7 witness: after registering kline handlers 40 then 41, the
well-formed kline frame is delivered to 41 with the decoded event. -/
theorem claim_C7_witness :
    handle_msg decAll (add_kline_handler (add_kline_handler wsAll 40) 41) klineGood =
      some [Invocation.kline 41 5] :=
  claim_C7.2.2.2.2 (List Str) Nat Nat Nat Nat Nat Nat Nat Nat Nat Nat Nat
    decAll wsAll 40 41 klineGood 5 (by decide) rfl

/-- Claim C8: `connect` and `connect_multiple_streams` report failures
synchronously as an error result — a URL-parse failure as `badEndpoint`, a
transport-handshake failure as `handshakeFailed` — and in either failure
case the struct (in particular its `socket` field) is left unchanged: no
transport handle is stored. -/
theorem claim_C8 :
    (∀ (Url S U M T K : Type) (env : Env Url S) (ws : WebSockets S U M T K) (e : Str),
      env.parseUrl (WEBSOCKET_URL ++ e) = none →
      connect env ws e = (Except.error ConnectError.badEndpoint, ws)) ∧
    (∀ (Url S U M T K : Type) (env : Env Url S) (ws : WebSockets S U M T K)
       (e : Str) (u : Url),
      env.parseUrl (WEBSOCKET_URL ++ e) = some u → env.wsConnect u = none →
      connect env ws e = (Except.error ConnectError.handshakeFailed, ws)) ∧
    (∀ (Url S U M T K : Type) (env : Env Url S) (ws : WebSockets S U M T K)
       (es : List Str),
      env.parseUrl (WEBSOCKET_MULTI_STREAM ++ join_sep (str ("/")) es) = none →
      connect_multiple_streams env ws es =
        (Except.error ConnectError.badEndpoint, ws)) ∧
    (∀ (Url S U M T K : Type) (env : Env Url S) (ws : WebSockets S U M T K)
       (es : List Str) (u : Url),
      env.parseUrl (WEBSOCKET_MULTI_STREAM ++ join_sep (str ("/")) es) = some u →
      env.wsConnect u = none →
      connect_multiple_streams env ws es =
        (Except.error ConnectError.handshakeFailed, ws)) := by
  refine ⟨?_, ?_, ?_, ?_⟩
  · intro Url S U M T K env ws e hp
    unfold connect
    rw [hp]
  · intro Url S U M T K env ws e u hp hc
    unfold connect
    simp [hp, hc]
  · intro Url S U M T K env ws es hp
    unfold connect_multiple_streams
    rw [hp]
  · intro Url S U M T K env ws es u hp hc
    unfold connect_multiple_streams
    simp [hp, hc]

/-- Claim C8 witness: with an environment whose parser always fails, both
connect operations return `badEndpoint`; with a parser that succeeds and a
transport that refuses the handshake, both return `handshakeFailed`; the
struct is unchanged in all four cases. -/
theorem claim_C8_witness :
    connect { parseUrl := fun _ => (none : Option Unit), wsConnect := fun _ => (none : Option (List Str)) }
        wsAll (str ("bnbusdt@aggTrade")) =
      (Except.error ConnectError.badEndpoint, wsAll) ∧
    connect { parseUrl := fun _ => some (), wsConnect := fun _ => (none : Option (List Str)) }
        wsAll (str ("bnbusdt@aggTrade")) =
      (Except.error ConnectError.handshakeFailed, wsAll) ∧
    connect_multiple_streams
        { parseUrl := fun _ => (none : Option Unit), wsConnect := fun _ => (none : Option (List Str)) }
        wsAll [str ("a"), str ("b")] =
      (Except.error ConnectError.badEndpoint, wsAll) ∧
    connect_multiple_streams
        { parseUrl := fun _ => some (), wsConnect := fun _ => (none : Option (List Str)) }
        wsAll [str ("a"), str ("b")] =
      (Except.error ConnectError.handshakeFailed, wsAll) :=
  ⟨claim_C8.1 Unit (List Str) Nat Nat Nat Nat _ wsAll _ rfl,
   claim_C8.2.1 Unit (List Str) Nat Nat Nat Nat _ wsAll _ () rfl rfl,
   claim_C8.2.2.1 Unit (List Str) Nat Nat Nat Nat _ wsAll _ rfl,
   claim_C8.2.2.2 Unit (List Str) Nat Nat Nat Nat _ wsAll _ () rfl rfl⟩

/-- Claim C9: if `event_loop` runs on a dispatcher whose `socket` is `None`,
every number of loop iterations completes without reading a frame, without
invoking any handler, without panicking and without changing the state — the
`loop` has no exit path, so it spins forever doing nothing. -/
theorem claim_C9 {U M T K A O Tr D Kl B DB : Type}
    (dec : Decoders A O Tr D Kl B DB) (ws : WebSockets (List Str) U M T K)
    (hsock : ws.socket = none) :
    ∀ n, event_loopN dec n ws = some (ws, []) := by
  intro n
  induction n with
  | zero => rfl
  | succ n ih =>
    unfold event_loopN
    rw [hsock]
    exact ih

/-- Claim C9 witness: five iterations on a socketless dispatcher do
nothing. -/
theorem claim_C9_witness : event_loopN decAll 5 wsAll = some (wsAll, []) :=
  claim_C9 decAll wsAll rfl 5

/-- Claim C10: each `add_*_handler` call mutates only its own family's
handler slot; the `socket` field and the other three handler slots are
unchanged. -/
theorem claim_C10 :
    ∀ (S U M T K : Type) (ws : WebSockets S U M T K) (hu : U) (hm : M) (ht : T) (hk : K),
      ((add_user_stream_handler ws hu).socket = ws.socket ∧
        (add_user_stream_handler ws hu).market_handler = ws.market_handler ∧
        (add_user_stream_handler ws hu).ticker_handler = ws.ticker_handler ∧
        (add_user_stream_handler ws hu).kline_handler = ws.kline_handler) ∧
      ((add_market_handler ws hm).socket = ws.socket ∧
        (add_market_handler ws hm).user_stream_handler = ws.user_stream_handler ∧
        (add_market_handler ws hm).ticker_handler = ws.ticker_handler ∧
        (add_market_handler ws hm).kline_handler = ws.kline_handler) ∧
      ((add_day_ticker_handler ws ht).socket = ws.socket ∧
        (add_day_ticker_handler ws ht).user_stream_handler = ws.user_stream_handler ∧
        (add_day_ticker_handler ws ht).market_handler = ws.market_handler ∧
        (add_day_ticker_handler ws ht).kline_handler = ws.kline_handler) ∧
      ((add_kline_handler ws hk).socket = ws.socket ∧
        (add_kline_handler ws hk).user_stream_handler = ws.user_stream_handler ∧
        (add_kline_handler ws hk).market_handler = ws.market_handler ∧
        (add_kline_handler ws hk).ticker_handler = ws.ticker_handler) :=
  fun S U M T K ws hu hm ht hk =>
    ⟨⟨rfl, rfl, rfl, rfl⟩, ⟨rfl, rfl, rfl, rfl⟩, ⟨rfl, rfl, rfl, rfl⟩,
      ⟨rfl, rfl, rfl, rfl⟩⟩

/-- Claim C1: `handle_msg` assigns each frame to at most one event family —
the one whose discriminator token is earliest in the fixed order
(`outboundAccountInfo`, `executionReport`, `aggTrade`, `24hrTicker`, `kline`,
`lastUpdateId`, `depthUpdate`, `stream`) among the tokens occurring as
substrings of the frame: the source's classification chain coincides with the
spec-side first-match classifier (first conjunct).  In particular a frame
containing both `depthUpdate` and `lastUpdateId` (and no earlier token) is
classified as the partial order book, and when a market handler is registered
and decoding succeeds exactly the partial-order-book callback is invoked
(second conjunct). -/
theorem claim_C1 :
    (∀ msg : Str, classify msg = classifySpec msg) ∧
    (∀ (S U M T K A O Tr D Kl B DB : Type) (dec : Decoders A O Tr D Kl B DB)
       (ws : WebSockets S U M T K) (msg : Str) (h : M) (ev : B),
      containsSub msg PARTIAL_ORDERBOOK = true →
      containsSub msg DEPTH_ORDERBOOK = true →
      containsSub msg OUTBOUND_ACCOUNT_INFO = false →
      containsSub msg EXECUTION_REPORT = false →
      containsSub msg AGGREGATED_TRADE = false →
      containsSub msg DAYTICKER = false →
      containsSub msg KLINE = false →
      ws.market_handler = some h →
      dec.orderBook msg = some ev →
      classify msg = FrameClass.snapshotBook ∧
        handle_msg dec ws msg = some [Invocation.snapshotBook h ev]) := by
  constructor
  · exact classify_eq_classifySpec
  · intro S U M T K A O Tr D Kl B DB dec ws msg h ev h6 _ c1 c2 c3 c4 c5 hmkt hdec
    have hcl : classify msg = FrameClass.snapshotBook := by
      simp [classify, c1, c2, c3, c4, c5, h6]
    refine ⟨hcl, ?_⟩
    rw [handle_msg_eq_branch, hcl]
    simp [hdec, hmkt]

/-- Claim C1 witness: the S6 frame containing both `depthUpdate` and
`lastUpdateId` is classified as the partial order book and delivered to the
market handler's partial-order-book callback only. -/
theorem claim_C1_witness :
    classify snapFrame = FrameClass.snapshotBook ∧
      handle_msg decAll wsAll snapFrame = some [Invocation.snapshotBook 20 6] :=
  claim_C1.2 (List Str) Nat Nat Nat Nat Nat Nat Nat Nat Nat Nat Nat decAll wsAll
    snapFrame 20 6 (by decide) (by decide) (by decide) (by decide) (by decide)
    (by decide) (by decide) rfl rfl

/-- Claim C2 counterexample: the malformed kline frame (kline handler
registered, kline decoder rejecting it) makes `handle_msg` panic (`none`), and
a loop fed this frame followed by a well-formed kline frame aborts instead of
delivering the latter — which, processed alone, would be delivered.  This
refutes "decode failure never terminates or aborts the loop". -/
theorem claim_C2_counterexample :
    classify klineBad = FrameClass.kline ∧
      wsAll.kline_handler = some 40 ∧
      decSelective.kline klineBad = none ∧
      handle_msg decSelective wsAll klineBad = none ∧
      event_loopN decSelective 2 { wsAll with socket := some [klineBad, klineGood] } = none ∧
      handle_msg decSelective wsAll klineGood = some [Invocation.kline 40 5] :=
  ⟨by decide, rfl, by decide, by decide, by decide, by decide⟩

/-- Claim C2 (amended): for a frame classified into a recognized family whose
payload fails deserialization for that family's type, no handler is invoked
for the frame; but instead of the frame being discarded and the loop
continuing, the `.unwrap()` on the failed decode panics: `handle_msg` aborts
(`none`) and the event loop terminates, delivering no later frame. -/
theorem claim_C2 {U M T K A O Tr D Kl B DB : Type}
    (dec : Decoders A O Tr D Kl B DB) (msg : Str) (hfail : decodeFailsAt dec msg) :
    (∀ (S : Type) (ws : WebSockets S U M T K), handle_msg dec ws msg = none) ∧
    (∀ (ws : WebSockets (List Str) U M T K) (rest : List Str) (n : Nat),
      ws.socket = some (msg :: rest) → event_loopN dec (n + 1) ws = none) := by
  have hmain : ∀ (S : Type) (ws : WebSockets S U M T K), handle_msg dec ws msg = none := by
    intro S ws
    rw [handle_msg_eq_branch]
    revert hfail
    unfold decodeFailsAt
    cases hcl : classify msg <;> intro hfail <;>
      first
        | exact hfail.elim
        | simp [hfail]
  refine ⟨hmain, ?_⟩
  intro ws rest n hsock
  have h2 := hmain (List Str) { ws with socket := some rest }
  simp [event_loopN, hsock, h2]

/-- Claim C2 witness: the panic and the loop abort at the concrete malformed
kline frame. -/
theorem claim_C2_witness :
    handle_msg decSelective wsAll klineBad = none ∧
      event_loopN decSelective 1 { wsAll with socket := some [klineBad] } = none := by
  have hfail : decodeFailsAt decSelective klineBad :=
    (by decide : decSelective.kline klineBad = none)
  have h := @claim_C2 Nat Nat Nat Nat Nat Nat Nat Nat Nat Nat Nat decSelective klineBad hfail
  exact ⟨h.1 (List Str) wsAll, h.2 { wsAll with socket := some [klineBad] } [] 0 rfl⟩

/-- Claim C3: processing the enveloped frame `{"stream":"X","data":P}` through
`handle_msg` produces exactly the same handler invocations as processing `P`
directly, provided no discriminator token earlier than `stream` in the
classification order occurs in the payload or elsewhere in the envelope text
(i.e. in the stream name).  Under that proviso neither side can reach a
terminal branch, so both perform no invocation and no panic. -/
theorem claim_C3 {S U M T K A O Tr D Kl B DB : Type}
    (dec : Decoders A O Tr D Kl B DB) (ws : WebSockets S U M T K) (X P : Str)
    (hX : ∀ tok ∈ earlyTokens, ¬ tok <:+: X)
    (hP : ∀ tok ∈ earlyTokens, ¬ tok <:+: P) :
    handle_msg dec ws (envFrame X P) = handle_msg dec ws P := by
  rw [handle_msg_no_early dec ws P hP,
    handle_msg_no_early dec ws (envFrame X P) (no_earlyTokens_envFrame hX hP)]

/-- Claim C3 witness: a concrete enveloped frame and its payload dispatch
identically. -/
theorem claim_C3_witness :
    handle_msg decAll wsAll (envFrame (str ("bnbusdt@depth")) (str ("\x7b\"bids\":[]\x7d"))) =
      handle_msg decAll wsAll (str ("\x7b\"bids\":[]\x7d")) :=
  claim_C3 decAll wsAll (str ("bnbusdt@depth")) (str ("\x7b\"bids\":[]\x7d"))
    (by decide) (by decide)

/-- Claim C4 counterexample: for the envelope `{"stream":"s","data":{"e":1}}`
the `STREAM` branch extracts the slice `"data":{"e":1` — starting at (and
including) the `"data":` key and stopping one character short of the final
`}` — which is not the value `{"e":1}` of the data field, refuting "extracts
exactly the substring that is the value of the data field". -/
theorem claim_C4_counterexample :
    extract_data (envFrame (str ("s")) (str ("\x7b\"e\":1\x7d"))) =
        some (str ("\"data\":\x7b\"e\":1")) ∧
      str ("\"data\":\x7b\"e\":1") ≠ str ("\x7b\"e\":1\x7d") :=
  ⟨by decide, by decide⟩

/-- Claim C4 (amended): when a frame is classified as envelope, the
dispatcher extracts the slice beginning at the first occurrence of the
`"data":` key — including the key itself — and ending one character before
the last `}` of the frame, and recursively reclassifies exactly that slice:
for a canonical envelope `{"stream":"s","data":P}` with nonempty token-free
payload `P`, the extracted slice is `"data":` followed by `P` minus its last
character, and `handle_msg` on the envelope equals `handle_msg` on that
slice. -/
theorem claim_C4 {S U M T K A O Tr D Kl B DB : Type}
    (dec : Decoders A O Tr D Kl B DB) (ws : WebSockets S U M T K) (P : Str)
    (hne : P ≠ []) (hP : ∀ tok ∈ earlyTokens, ¬ tok <:+: P) :
    extract_data (envFrame (str ("s")) P) = some (DATA_KEY ++ P.dropLast) ∧
      handle_msg dec ws (envFrame (str ("s")) P) =
        handle_msg dec ws (DATA_KEY ++ P.dropLast) := by
  have hXs : ∀ tok ∈ earlyTokens, ¬ tok <:+: str ("s") := by decide
  have hlp : 1 ≤ P.length := List.length_pos.mpr hne
  have hshape : envFrame (str ("s")) P =
      str ("\x7b\"stream\":\"s\",\"data\":") ++ (P ++ [rightBrace]) := by
    show envPrefix ++ (str ("s") ++ (envMid ++ (P ++ envEnd))) = _
    rw [show (str ("\x7b\"stream\":\"s\",\"data\":") : Str) =
        envPrefix ++ (str ("s") ++ envMid) from by decide]
    rw [show (envEnd : Str) = [rightBrace] from rfl]
    simp [List.append_assoc]
  have hCdrop : (str ("\x7b\"stream\":\"s\",\"data\":") : Str).drop 14 = DATA_KEY := by decide
  have hClen : (str ("\x7b\"stream\":\"s\",\"data\":") : Str).length = 21 := by decide
  have hfind : findSub (envFrame (str ("s")) P) DATA_KEY = some 14 := by
    rw [hshape, findSub_eq_some_iff]
    constructor
    · rw [List.drop_append_of_le_length (by decide), hCdrop]
      exact List.prefix_append _ _
    · intro q hq hpre
      rw [List.drop_append_of_le_length (by rw [hClen]; omega)] at hpre
      have hlen7 : (DATA_KEY : Str).length ≤
          ((str ("\x7b\"stream\":\"s\",\"data\":") : Str).drop q).length := by
        rw [List.length_drop, hClen]
        have h7 : (DATA_KEY : Str).length = 7 := by decide
        omega
      have hpre' := prefix_of_append_left hpre hlen7
      have hnone : ∀ q', q' < 14 →
          ¬ DATA_KEY <+: (str ("\x7b\"stream\":\"s\",\"data\":") : Str).drop q' := by decide
      exact hnone q hq hpre'
  have hrf : rfindChar (envFrame (str ("s")) P) rightBrace = some (21 + P.length) := by
    rw [hshape]
    rw [show (str ("\x7b\"stream\":\"s\",\"data\":") : Str) ++ (P ++ [rightBrace]) =
        ((str ("\x7b\"stream\":\"s\",\"data\":") : Str) ++ P) ++ [rightBrace] from by
      simp [List.append_assoc]]
    rw [rfindChar_concat]
    simp [hClen]
  have hext : extract_data (envFrame (str ("s")) P) = some (DATA_KEY ++ P.dropLast) := by
    unfold extract_data
    rw [hfind, hrf]
    simp only []
    congr 1
    rw [hshape, List.drop_append_of_le_length (by decide), hCdrop]
    have h7 : (DATA_KEY : Str).length = 7 := by decide
    have harith : 21 + P.length - 14 - 1 = DATA_KEY.length + (P.length - 1) := by
      rw [h7]; omega
    rw [harith, List.take_append]
    congr 1
    rw [List.take_append_of_le_length (by omega)]
    rw [List.dropLast_eq_take]
  refine ⟨hext, ?_⟩
  rw [handle_msg_eq_branch, classify_envFrame hXs hP]
  rw [hext]

/-- Claim C4 witness: the amended extraction equation at a concrete
payload. -/
theorem claim_C4_witness :
    extract_data (envFrame (str ("s")) (str ("\x7b\"p\":2\x7d"))) =
        some (DATA_KEY ++ (str ("\x7b\"p\":2\x7d")).dropLast) ∧
      handle_msg decAll wsAll (envFrame (str ("s")) (str ("\x7b\"p\":2\x7d"))) =
        handle_msg decAll wsAll (DATA_KEY ++ (str ("\x7b\"p\":2\x7d")).dropLast) :=
  claim_C4 decAll wsAll (str ("\x7b\"p\":2\x7d")) (by decide) (by decide)

/-- Claim C5 counterexample: a malformed kline frame with no kline handler
registered still runs the decoder, whose failure panics (`none`): the frame is
not "silently dropped without aborting the event loop". -/
theorem claim_C5_counterexample :
    classify klineBad = FrameClass.kline ∧
      wsNoKline.kline_handler = none ∧
      handle_msg decSelective wsNoKline klineBad = none :=
  ⟨by decide, rfl, by decide⟩

/-- Claim C5 (amended): a frame classified into a recognized family whose
payload decodes successfully and for which no handler is registered invokes
no handler of any family (`some []`), and the event loop steps over it,
continuing with the remaining frames as if the frame had not been there. -/
theorem claim_C5 {U M T K A O Tr D Kl B DB : Type}
    (dec : Decoders A O Tr D Kl B DB) (ws : WebSockets (List Str) U M T K)
    (msg : Str) (habs : handlerAbsent ws (classify msg)) (hok : decodeOk dec msg) :
    handle_msg dec ws msg = some [] ∧
      ∀ (rest : List Str) (n : Nat), ws.socket = some (msg :: rest) →
        event_loopN dec (n + 1) ws = event_loopN dec n { ws with socket := some rest } := by
  have hm : ∀ ws'' : WebSockets (List Str) U M T K,
      handlerAbsent ws'' (classify msg) → handle_msg dec ws'' msg = some [] := by
    intro ws'' habs''
    rw [handle_msg_eq_branch]
    revert habs''
    unfold handlerAbsent
    revert hok
    unfold decodeOk
    cases hcl : classify msg <;> intro hok habs'' <;>
      first
        | exact hok.elim
        | (obtain ⟨ev, hev⟩ := Option.isSome_iff_exists.mp hok
           simp [hev, habs''])
  constructor
  · exact hm ws habs
  · intro rest n hsock
    have habs2 : handlerAbsent { ws with socket := some rest } (classify msg) := by
      revert habs
      unfold handlerAbsent
      cases classify msg <;> exact fun habs => habs
    have h2 := hm { ws with socket := some rest } habs2
    simp [event_loopN, hsock, h2]

/-- Claim C5 witness: a kline frame with no kline handler registered is
decoded and dropped, and the following aggTrade frame is still delivered to
the market handler. -/
theorem claim_C5_witness :
    handle_msg decAll { wsNoKline with socket := some [klineGood, aggFrame] } klineGood =
        some [] ∧
      event_loopN decAll 2 { wsNoKline with socket := some [klineGood, aggFrame] } =
        event_loopN decAll 1 { wsNoKline with socket := some [aggFrame] } ∧
      event_loopN decAll 1 { wsNoKline with socket := some [aggFrame] } =
        some ({ wsNoKline with socket := some [] }, [Invocation.aggTrades 20 3]) := by
  have habs : handlerAbsent { wsNoKline with socket := some [klineGood, aggFrame] }
      (classify klineGood) := (by decide : (none : Option Nat) = none)
  have hok : decodeOk decAll klineGood := (by decide : (decAll.kline klineGood).isSome = true)
  have h := claim_C5 decAll { wsNoKline with socket := some [klineGood, aggFrame] }
    klineGood habs hok
  exact ⟨h.1, h.2 [aggFrame] 1 rfl, by decide⟩

end BinanceWS

